import Mathlib

/-!
Verification of the resource-pooling and admission-control subsystem of the
screenshot-api service (`src/index.js`).

The JavaScript source is embedded shallowly:

* `SimpleCache` (index.js lines 769-806) becomes an association list with the
  JS `Map` update semantics and an explicit `now` clock argument.
* `RequestQueue` (lines 725-757) becomes a state machine whose steps are the
  synchronous blocks between `await` suspension points.
* `BrowserPool` (lines 40-722) becomes `PoolState` with the `browsers`,
  `availableBrowsers` and `waitingQueue` arrays as lists, plus a ghost
  `inUse` list recording instances that have been acquired and not yet
  released, and a ghost `pendingCreates` counter recording acquisitions
  suspended inside `await this.createBrowser()`.
* `createBrowser` retries (lines 503-525) and the creation retry inside
  `acquireBrowser` (lines 561-581) become recursions over an oracle giving
  the outcome of each launch attempt.
* `waitForPageLoad` (lines 865-951) and its helper stages become a model of
  which stages execute, driven by an oracle saying which stages fail, plus
  arithmetic models of the content-stability sampling loop (lines 954-982)
  and the in-page lazy-load scrolling loop (lines 985-1006).
* the cache-key construction of the `/screenshot` route (lines 1162-1170)
  becomes the string that is fed to the hash.

JavaScript array conventions used throughout: for the `availableBrowsers`
stack (`push`/`pop` at the array end) the Lean list is kept reversed, so the
head of the list is the end of the JS array; for the FIFO `waitingQueue`
(`push` at the end, `shift` at the front) the head of the Lean list is the
front of the JS array.
-/

/-! ### SimpleCache (index.js lines 769-806) -/

/-- One stored cache entry: the value together with its absolute expiry
timestamp (`expiresAt = Date.now() + this.ttl` at `set` time). -/
structure CacheEntry (α : Type) where
  value : α
  expiresAt : Nat
deriving DecidableEq

/-- JS `Map.set`: overwrite the entry for the key in place if present,
otherwise append it. -/
def mapSet {α : Type} : List (String × CacheEntry α) → String → CacheEntry α →
    List (String × CacheEntry α)
  | [], k, e => [(k, e)]
  | (k', e') :: rest, k, e =>
    if k' = k then (k, e) :: rest else (k', e') :: mapSet rest k e

/-- JS `Map.get`: the entry stored for the key, if any. -/
def mapGet {α : Type} : List (String × CacheEntry α) → String → Option (CacheEntry α)
  | [], _ => none
  | (k', e') :: rest, k => if k' = k then some e' else mapGet rest k

/-- JS `Map.delete`: remove the entry stored for the key. -/
def mapDelete {α : Type} : List (String × CacheEntry α) → String →
    List (String × CacheEntry α)
  | [], _ => []
  | (k', e') :: rest, k => if k' = k then rest else (k', e') :: mapDelete rest k

/-- The `SimpleCache` object: the backing `Map` and the configured TTL. -/
structure SimpleCache (α : Type) where
  cache : List (String × CacheEntry α)
  ttl : Nat

/-- `SimpleCache.set` (index.js lines 775-778): store the value with expiry
`now + ttl`. -/
def SimpleCache.set {α : Type} (c : SimpleCache α) (now : Nat) (k : String) (v : α) :
    SimpleCache α :=
  { c with cache := mapSet c.cache k ⟨v, now + c.ttl⟩ }

/-- `SimpleCache.get` (index.js lines 780-790): return the stored value if
present and not expired; if the entry is expired (`Date.now() > expiresAt`),
delete it and return nothing. The pair is (returned value, cache after the
side effect). -/
def SimpleCache.get {α : Type} (c : SimpleCache α) (now : Nat) (k : String) :
    Option α × SimpleCache α :=
  match mapGet c.cache k with
  | none => (none, c)
  | some e =>
    if e.expiresAt < now then (none, { c with cache := mapDelete c.cache k })
    else (some e.value, c)

/-! ### RequestQueue (index.js lines 725-757)

States are snapshots between suspension points.  Tasks are identified by
the order of submission (`nextTask` counter); `submitted`, `dispatched`
and `settled` are ghost histories used to state the FIFO and
single-dispatch guarantees. -/

structure QueueState where
  maxConcurrent : Nat
  running : Nat
  queue : List Nat
  nextTask : Nat
  submitted : List Nat
  dispatched : List Nat
  settled : List (Nat × Bool)
deriving DecidableEq

/-- `RequestQueue.processQueue` up to its first `await` (index.js lines
740-746): if saturated or the queue is empty do nothing, else increment
`running`, shift the oldest task off the queue and start it (recorded in
the ghost `dispatched` history). -/
def processQueue (s : QueueState) : QueueState :=
  match s.queue with
  | [] => s
  | t :: rest =>
    if s.maxConcurrent ≤ s.running then s
    else { s with running := s.running + 1, queue := rest,
                  dispatched := s.dispatched ++ [t] }

/-- `RequestQueue.addRequest` (index.js lines 732-738): push the new task and
run `processQueue`. -/
def addRequest (s : QueueState) : QueueState :=
  processQueue { s with queue := s.queue ++ [s.nextTask],
                        submitted := s.submitted ++ [s.nextTask],
                        nextTask := s.nextTask + 1 }

/-- The `finally` block of `processQueue` (index.js lines 748-756) running
when the handler of task `t` settles with success flag `ok`: record the
settlement (the `resolve`/`reject` of that task only), decrement `running`
and run `processQueue` again. -/
def taskSettled (t : Nat) (ok : Bool) (s : QueueState) : QueueState :=
  processQueue { s with running := s.running - 1, settled := s.settled ++ [(t, ok)] }

/-- The events that mutate a `RequestQueue`: a submission, or a running
task settling (successfully or not). -/
inductive QEvent where
  | submit
  | complete (t : Nat) (ok : Bool)

def qStep : QEvent → QueueState → QueueState
  | .submit, s => addRequest s
  | .complete t ok, s => taskSettled t ok s

def initQueue (maxC : Nat) : QueueState :=
  { maxConcurrent := maxC, running := 0, queue := [], nextTask := 0,
    submitted := [], dispatched := [], settled := [] }

def qRun (maxC : Nat) (evs : List QEvent) : QueueState :=
  evs.foldl (fun s e => qStep e s) (initQueue maxC)

/-! ### Cache key construction (index.js lines 1162-1170)

The `/screenshot` route hashes the string
`url + "_" + width + "_" + height + "_" + fullPage + "_" + type`, where
`width`, `height` and `type` are the raw query strings (with defaults
`1920`, `1080`, `png`) and `fullPage` is the boolean
`req.query.fullPage !== "false"` coerced to `"true"`/`"false"`. -/

def cacheKeyPreimage (url width height : String) (fullPage : Bool)
    (imgType : String) : String :=
  url ++ "_" ++ width ++ "_" ++ height ++ "_" ++
    (if fullPage then "true" else "false") ++ "_" ++ imgType

/-! ### Browser creation retries (index.js lines 66-68, 503-525)

`createBrowser` makes one launch attempt; on failure, while
`retryCount < maxRetries` it sleeps `baseDelay * 2 ^ retryCount` and calls
itself with `retryCount + 1`; after that it throws the terminal creation
error.  The launch outcome of attempt `k` is given by an oracle
`outcome k`.  The recursion is expressed with an explicit fuel equal to
`maxCreateRetries - retryCount`, the number of retries still permitted.
The result is the index of the successful attempt (or `none`) paired with
the list of backoff delays slept, in order. -/

def maxCreateRetries : Nat := 3

def createBaseDelay : Nat := 2000

def createBrowserAux (outcome : Nat → Bool) : Nat → Nat → Option Nat × List Nat
  | retryCount, 0 =>
    if outcome retryCount then (some retryCount, []) else (none, [])
  | retryCount, fuel + 1 =>
    if outcome retryCount then (some retryCount, [])
    else
      let d := createBaseDelay * 2 ^ retryCount
      let (r, ds) := createBrowserAux outcome (retryCount + 1) fuel
      (r, d :: ds)

def createBrowser (outcome : Nat → Bool) : Option Nat × List Nat :=
  createBrowserAux outcome 0 maxCreateRetries

/-- The creation path of `acquireBrowser` (index.js lines 532, 549-581):
when no browser is available and the pool is not full it awaits
`createBrowser()`; if that throws and `retryCount < maxRetries` (= 2) it
sleeps 3000 ms and retries `acquireBrowser(retryCount + 1)`, else it
rethrows the terminal creation error.  `outcome r k` is the launch outcome
of attempt `k` of the `createBrowser()` run started by acquire retry `r`.
Fuel is `acquireMaxRetries - r`. -/

def acquireMaxRetries : Nat := 2

def acquireCreateAux (outcome : Nat → Nat → Bool) : Nat → Nat → Option Nat × List Nat
  | r, 0 => createBrowser (outcome r)
  | r, fuel + 1 =>
    match createBrowser (outcome r) with
    | (some k, ds) => (some k, ds)
    | (none, ds) =>
      let (res, ds') := acquireCreateAux outcome (r + 1) fuel
      (res, ds ++ 3000 :: ds')

def acquireViaCreate (outcome : Nat → Nat → Bool) : Option Nat × List Nat :=
  acquireCreateAux outcome 0 acquireMaxRetries

/-! ### waitForPageLoad stages (index.js lines 865-951)

The ten numbered steps of `waitForPageLoad`, driven by an oracle `fails`
saying which stages would fail when executed.  Which stage failures are
swallowed where is read off the source:

* step 1 (`waitForFunction` for `document.readyState`, lines 871-873) and
  step 2 (`waitForFunction` for minimal body text, lines 877-880) are not
  wrapped individually, so their exceptions reach the outer
  `try`/`catch` of `waitForPageLoad` (lines 945-950), which logs and
  returns: the remaining steps are skipped, but nothing propagates;
* step 3 (`dismissCookieConsent`, lines 1079-1120), step 5
  (`waitForContentStability`, lines 954-982), step 6
  (`triggerLazyLoading`, lines 985-1006) and step 10
  (`waitForCriticalContent`, lines 1009-1076) catch internally;
* step 4 (lines 888-892), step 7 (lines 904-917) and step 8
  (lines 921-934) have their own inner `try`/`catch`;
* step 9 (line 938) is a fixed 2-second delay that cannot fail. -/

def stageInternallyCaught : Nat → Bool
  | 3 | 4 | 5 | 6 | 7 | 8 | 9 | 10 => true
  | _ => false

/-- Run the given stages in order: a failing stage whose failure is not
internally caught aborts the run via the outer catch (which swallows the
error); every other stage, failing or not, is followed by the next one.
Returns the list of stages that were entered and whether an error
propagated to the caller. -/
def runStagesFrom (fails : Nat → Bool) : List Nat → List Nat × Bool
  | [] => ([], false)
  | i :: rest =>
    if fails i && !stageInternallyCaught i then ([i], false)
    else (i :: (runStagesFrom fails rest).1, (runStagesFrom fails rest).2)

def pageLoadStages : List Nat := [1, 2, 3, 4, 5, 6, 7, 8, 9, 10]

def waitForPageLoad (fails : Nat → Bool) : List Nat × Bool :=
  runStagesFrom fails pageLoadStages

/-! ### Content-stability sampling (index.js lines 954-982)

The loop samples `document.body.innerHTML.length` at most `maxChecks = 8`
times; after 3 consecutive equal non-zero samples it breaks early.
`content i` is the sample observed at iteration `i`; `prev` is the
previously observed sample (`none` models the initial `""`, which never
equals a number).  The function returns the number of samples taken. -/

def stabilityAux (content : Nat → Nat) : Nat → Option Nat → Nat → Nat → Nat
  | _, _, _, 0 => 0
  | idx, prev, stableCount, fuel + 1 =>
    let cur := content idx
    if prev = some cur ∧ 0 < cur then
      if 3 ≤ stableCount + 1 then 1
      else 1 + stabilityAux content (idx + 1) (some cur) (stableCount + 1) fuel
    else 1 + stabilityAux content (idx + 1) (some cur) 0 fuel

def stabilityChecks (content : Nat → Nat) : Nat :=
  stabilityAux content 0 none 0 8

/-! ### Lazy-load scrolling (index.js lines 985-1006)

The in-page loop run by `page.evaluate`:

```
while (currentPosition < scrollHeight - viewportHeight) {
  window.scrollBy(0, scrollStep);   // scrollStep = viewportHeight * 0.8
  currentPosition += scrollStep;
  await ...
}
```

Positions and heights are modelled as rationals. `scrollLoop fuel s` runs
at most `fuel` iterations and returns the number of iterations performed
if the loop exited, `none` if the fuel ran out first. -/

structure ScrollState where
  scrollHeight : ℚ
  viewportHeight : ℚ
  currentPosition : ℚ
deriving DecidableEq

def scrollCond (s : ScrollState) : Bool :=
  decide (s.currentPosition < s.scrollHeight - s.viewportHeight)

def scrollStepFn (s : ScrollState) : ScrollState :=
  { s with currentPosition := s.currentPosition + 4 / 5 * s.viewportHeight }

def scrollLoop : Nat → ScrollState → Option Nat
  | 0, s => if scrollCond s then none else some 0
  | fuel + 1, s =>
    if scrollCond s then (scrollLoop fuel (scrollStepFn s)).map (· + 1)
    else some 0

/-! ### Waiter queue entries as function references (index.js lines 584-605)

When `acquireBrowser` parks a caller, it pushes the arrow function
`(browser) => { clearTimeout(timeout); resolve(browser); }` into
`waitingQueue` (line 600), while the timeout handler (lines 587-598)
executes `this.waitingQueue.indexOf(resolve)` — on the `resolve` function
of the promise, a different object — and splices only `if (index > -1)`.
JS function identity is modelled by tagging each waiter's two closures. -/

inductive FnRef where
  | resolveFn (w : Nat)
  | wrapperFn (w : Nat)
deriving DecidableEq

/-- Line 600: parking waiter `w` pushes its wrapper at the end of the
queue. -/
def pushWaiter (q : List FnRef) (w : Nat) : List FnRef :=
  q ++ [FnRef.wrapperFn w]

/-- Lines 588-591: the timeout handler of waiter `w` looks up `resolve`
and splices it out only when found (`indexOf` returns the length when the
element is absent, matching JS `-1`). -/
def timeoutSplice (q : List FnRef) (w : Nat) : List FnRef :=
  let i := q.indexOf (FnRef.resolveFn w)
  if i < q.length then q.eraseIdx i else q

/-- Lines 628-630: a release with a pending waiter shifts the front of the
queue and hands the browser to it. -/
def releaseShift (q : List FnRef) : Option FnRef × List FnRef :=
  match q with
  | [] => (none, [])
  | f :: rest => (some f, rest)

/-- Lines 680-684: shutdown rejects every waiter and empties the queue. -/
def shutdownClear (_q : List FnRef) : List FnRef := []

/-! ### BrowserPool (index.js lines 40-722)

Browser instances are identified by the order of their creation
(`nextId`); the health of instance `b` is given by an oracle `healthy b`
(the code's `isBrowserHealthy`, lines 639-645, queries
`browser.isConnected()` and treats exceptions as unhealthy).  `inUse` is a
ghost history: the instances acquired and not yet released.  Waiters are
identified by `nextWaiter`. -/

structure PoolState where
  poolSize : Nat
  browsers : List Nat
  available : List Nat
  inUse : List Nat
  waitingQueue : List Nat
  nextId : Nat
  nextWaiter : Nat
  pendingCreates : Nat
  isShuttingDown : Bool
deriving DecidableEq

/-- The pool right after the constructor (lines 41-47) and `initialize`
(lines 49-64): `initialize` attempts `poolSize` creations, tolerating
failures; `createOk i` says whether creation `i` succeeded.  Each created
browser is pushed into both `browsers` and `availableBrowsers`; the
`available` stack stores the JS array reversed (head = array end). -/
def initPool (psize : Nat) (createOk : Nat → Bool) : PoolState :=
  { poolSize := psize,
    browsers := (List.range psize).filter createOk,
    available := ((List.range psize).filter createOk).reverse,
    inUse := [], waitingQueue := [],
    nextId := psize, nextWaiter := 0, pendingCreates := 0,
    isShuttingDown := false }

/-- `removeBrowser` (index.js lines 647-674): splice the instance out of
`browsers` and out of `availableBrowsers`, then issue a bounded-duration
close whose failure is swallowed (no state effect). -/
def removeBrowser (s : PoolState) (b : Nat) : PoolState :=
  { s with browsers := s.browsers.erase b, available := s.available.erase b }

/-- The available-stack loop of `acquireBrowser` (lines 536-547): pop the
top of the `availableBrowsers` stack; a healthy browser is returned, an
unhealthy one is removed (`removeBrowser`, which also splices it from the
rest of the stack) and the loop retries (`return this.acquireBrowser(retryCount)`).
Returns the remaining stack, the remaining `browsers` and the acquired
browser, if any. -/
def acquireLoop (healthy : Nat → Bool) : List Nat → List Nat →
    List Nat × List Nat × Option Nat
  | [], brs => ([], brs, none)
  | b :: rest, brs =>
    if healthy b then (rest, brs, some b)
    else acquireLoop healthy (rest.erase b) (brs.erase b)
termination_by avail _ => avail.length
decreasing_by
  simp only [List.length_cons]
  exact Nat.lt_succ_of_le ((List.erase_sublist _ _).length_le)

inductive AcqOutcome where
  | errorShuttingDown
  | acquired (b : Nat)
  | created (b : Nat)
  | parkedWaiter (w : Nat)
deriving DecidableEq

/-- One complete sequential (uninterleaved) run of `acquireBrowser`
(lines 527-605): reject if shutting down (lines 528-530); else drain the
available stack for a healthy browser (lines 536-547); else, if the pool
is not full, create a new instance and push it into `browsers`
(lines 549-560); else park the caller in `waitingQueue` (lines 584-605).
Creation is assumed to succeed here — a creation failure leaves the
instance sets unchanged (the failing path of lines 561-581 only sleeps
and rethrows), and is modelled separately by `acquireViaCreate`. -/
def acquireBrowserSeq (healthy : Nat → Bool) (s : PoolState) :
    PoolState × AcqOutcome :=
  if s.isShuttingDown then (s, .errorShuttingDown)
  else
    match acquireLoop healthy s.available s.browsers with
    | (avail, brs, some b) =>
      ({ s with available := avail, browsers := brs, inUse := s.inUse ++ [b] },
       .acquired b)
    | (avail, brs, none) =>
      if brs.length < s.poolSize then
        ({ s with available := avail, browsers := brs ++ [s.nextId],
                  inUse := s.inUse ++ [s.nextId], nextId := s.nextId + 1 },
         .created s.nextId)
      else
        ({ s with available := avail, browsers := brs,
                  waitingQueue := s.waitingQueue ++ [s.nextWaiter],
                  nextWaiter := s.nextWaiter + 1 },
         .parkedWaiter s.nextWaiter)

inductive ReleaseAction where
  | removedShuttingDown
  | handedToWaiter (w : Nat)
  | pushedToAvailable
  | removedUnhealthy
deriving DecidableEq

/-- `releaseBrowser` (index.js lines 620-637): during shutdown the entry is
removed and discarded; otherwise it is health-checked — if healthy and a
waiter is pending it is handed to the oldest waiter (shifted off the front
of `waitingQueue`) and not pushed onto the available stack; if healthy
with no waiter it is pushed onto the available stack; if unhealthy it is
removed. -/
def releaseBrowser (healthy : Nat → Bool) (s : PoolState) (b : Nat) :
    PoolState × ReleaseAction :=
  if s.isShuttingDown then (removeBrowser s b, .removedShuttingDown)
  else if healthy b then
    match s.waitingQueue with
    | w :: rest => ({ s with waitingQueue := rest }, .handedToWaiter w)
    | [] => ({ s with available := b :: s.available }, .pushedToAvailable)
  else (removeBrowser s b, .removedUnhealthy)

/-- The ghost bookkeeping around a release: a browser handed to a waiter
stays in use (it transfers to the waiter's caller); in every other case it
leaves the ghost `inUse` history. -/
def releaseStep (healthy : Nat → Bool) (s : PoolState) (b : Nat) : PoolState :=
  match releaseBrowser healthy s b with
  | (s', ReleaseAction.handedToWaiter _) => s'
  | (s', _) => { s' with inUse := s'.inUse.erase b }

/-- A sequential release event: the caller holding the `(i % |inUse|)`-th
in-use instance releases it (a no-op when nothing is checked out). -/
def releaseBrowserSeq (healthy : Nat → Bool) (i : Nat) (s : PoolState) :
    PoolState :=
  if s.inUse.length = 0 then s
  else releaseStep healthy s (s.inUse.getD (i % s.inUse.length) 0)

/-- `shutdown` (index.js lines 676-712): set the flag, reject and clear
every waiter, close every browser and clear both instance arrays.  The
ghost `inUse` history is untouched: instances still checked out are closed
under their holders. -/
def shutdownPool (s : PoolState) : PoolState :=
  { s with isShuttingDown := true, waitingQueue := [],
           browsers := [], available := [] }

/-- `initialize` run as an operation on an arbitrary state (lines 49-64):
pushes every successfully created instance into `browsers` and onto the
available stack; never touches `isShuttingDown`. -/
def initFill (createOk : Nat → Bool) (s : PoolState) : PoolState :=
  let created := ((List.range s.poolSize).map (· + s.nextId)).filter createOk
  { s with browsers := s.browsers ++ created,
           available := created.reverse ++ s.available,
           nextId := s.nextId + s.poolSize }

/-- The sequential operations of claim C1: acquire/release calls. -/
inductive SeqOp where
  | acquire
  | release (i : Nat)

def stepSeq (healthy : Nat → Bool) : SeqOp → PoolState → PoolState
  | .acquire, s => (acquireBrowserSeq healthy s).1
  | .release i, s => releaseBrowserSeq healthy i s

def runSeq (healthy : Nat → Bool) (ops : List SeqOp) (s : PoolState) : PoolState :=
  ops.foldl (fun s op => stepSeq healthy op s) s

/-- Every state-mutating method of `BrowserPool`, for claim C9. -/
inductive PoolOp where
  | acquire
  | release (i : Nat)
  | removeB (b : Nat)
  | shutdown
  | fill

def applyPoolOp (healthy createOk : Nat → Bool) : PoolOp → PoolState → PoolState
  | .acquire, s => (acquireBrowserSeq healthy s).1
  | .release i, s => releaseBrowserSeq healthy i s
  | .removeB b, s => removeBrowser s b
  | .shutdown, s => shutdownPool s
  | .fill, s => initFill createOk s

/-! ### Interleaved acquisitions (for claim C1)

`acquireBrowser` reads `this.browsers.length < this.poolSize` (line 550)
and only pushes the new instance after `await this.createBrowser()`
(lines 557-558) resumes.  Between those two points the caller is
suspended, and another `acquireBrowser` invocation can run the same
check.  The two halves are the micro-operations below; the ghost
`pendingCreates` counts callers suspended inside `createBrowser`. -/

/-- Lines 536, 550, 557: the synchronous prefix of the creation path —
enabled when the pool is not shutting down, the available stack is empty
and `browsers.length < poolSize`; the caller then suspends awaiting
`createBrowser()`. -/
def beginCreate (s : PoolState) : Option PoolState :=
  if s.isShuttingDown = false ∧ s.available = [] ∧ s.browsers.length < s.poolSize
  then some { s with pendingCreates := s.pendingCreates + 1 }
  else none

/-- Lines 558-560: the resumption after `createBrowser()` — the new
instance is pushed into `browsers` (with no re-check of the capacity) and
returned to the caller. -/
def finishCreate (s : PoolState) : Option PoolState :=
  if 0 < s.pendingCreates then
    some { s with pendingCreates := s.pendingCreates - 1,
                  browsers := s.browsers ++ [s.nextId],
                  inUse := s.inUse ++ [s.nextId],
                  nextId := s.nextId + 1 }
  else none

inductive MicroOp where
  | beginC
  | finishC

def microStep : MicroOp → PoolState → Option PoolState
  | .beginC, s => beginCreate s
  | .finishC, s => finishCreate s

def microRun (ops : List MicroOp) (s : PoolState) : Option PoolState :=
  ops.foldlM (fun s op => microStep op s) s

/-! ## Theorems -/

/-! ### Helper lemmas for the cache -/

lemma mapGet_mapSet_self {α : Type} (l : List (String × CacheEntry α))
    (k : String) (e : CacheEntry α) : mapGet (mapSet l k e) k = some e := by
  induction l with
  | nil => simp [mapSet, mapGet]
  | cons hd t ih =>
    obtain ⟨k', e'⟩ := hd
    by_cases hk : k' = k <;> simp [mapSet, mapGet, hk, ih]

lemma mapGet_eq_none_of_not_mem {α : Type} (l : List (String × CacheEntry α))
    (k : String) (h : k ∉ l.map Prod.fst) : mapGet l k = none := by
  induction l with
  | nil => rfl
  | cons hd t ih =>
    obtain ⟨k', e'⟩ := hd
    simp only [List.map_cons, List.mem_cons] at h
    push_neg at h
    have hk : ¬ k' = k := fun hh => h.1 hh.symm
    simp [mapGet, hk, ih h.2]

lemma mapGet_mapDelete_self {α : Type} (l : List (String × CacheEntry α))
    (k : String) (h : (l.map Prod.fst).Nodup) : mapGet (mapDelete l k) k = none := by
  induction l with
  | nil => rfl
  | cons hd t ih =>
    obtain ⟨k', e'⟩ := hd
    simp only [List.map_cons, List.nodup_cons] at h
    by_cases hk : k' = k
    · subst hk
      simpa [mapDelete] using mapGet_eq_none_of_not_mem t k' h.1
    · simp [mapDelete, mapGet, hk, ih h.2]

/-! ### C5: cache get/set semantics -/

/-- C5: `get` returns the stored value exactly when an entry is present and
not expired; `set` then `get` before the TTL elapses returns the value
unchanged; once the clock is past an entry's expiry, `get` returns nothing
and deletes the entry, so an expired value is never returned. -/
theorem c5_cache_round_trip_and_expiry :
    (∀ (α : Type) (c : SimpleCache α) (now now' : Nat) (k : String) (v : α),
      now' ≤ now + c.ttl → ((c.set now k v).get now' k).1 = some v) ∧
    (∀ (α : Type) (c : SimpleCache α) (now : Nat) (k : String) (v : α),
      ((c.get now k).1 = some v ↔
        ∃ e, mapGet c.cache k = some e ∧ e.value = v ∧ now ≤ e.expiresAt)) ∧
    (∀ (α : Type) (c : SimpleCache α) (now : Nat) (k : String) (e : CacheEntry α),
      (c.cache.map Prod.fst).Nodup → mapGet c.cache k = some e →
      e.expiresAt < now →
        (c.get now k).1 = none ∧ mapGet ((c.get now k).2).cache k = none) := by
  refine ⟨?_, ?_, ?_⟩
  · intro α c now now' k v h
    have hlt : ¬ (now + c.ttl < now') := by omega
    simp [SimpleCache.set, SimpleCache.get, mapGet_mapSet_self, hlt]
  · intro α c now k v
    unfold SimpleCache.get
    cases h : mapGet c.cache k with
    | none => simp [h]
    | some e =>
      by_cases hexp : e.expiresAt < now
      · simp only [h, if_pos hexp]
        constructor
        · intro hv; exact absurd hv (by simp)
        · rintro ⟨e', he', hv, hle⟩
          obtain rfl : e = e' := by injection he'
          omega
      · simp only [h, if_neg hexp]
        constructor
        · intro hv
          injection hv with hv'
          exact ⟨e, rfl, hv', by omega⟩
        · rintro ⟨e', he', hv, _⟩
          obtain rfl : e = e' := by injection he'
          simp [hv]
  · intro α c now k e hnd hget hexp
    constructor
    · simp [SimpleCache.get, hget, hexp]
    · simp [SimpleCache.get, hget, hexp, mapGet_mapDelete_self c.cache k hnd]

/-- Witness for C5 at a concrete cache: a value set at time 5 with TTL 10
is returned at time 12, and an entry expired at time 20 is neither
returned at time 30 nor still present afterwards. -/
theorem c5_cache_round_trip_and_expiry_witness :
    ((SimpleCache.set ⟨[], 10⟩ 5 "k" 42).get 12 "k").1 = some 42 ∧
    ((SimpleCache.get (α := Nat) ⟨[("k", ⟨7, 20⟩)], 10⟩ 30 "k").1 = none ∧
      mapGet ((SimpleCache.get (α := Nat) ⟨[("k", ⟨7, 20⟩)], 10⟩ 30 "k").2).cache "k"
        = none) :=
  ⟨c5_cache_round_trip_and_expiry.1 Nat ⟨[], 10⟩ 5 12 "k" 42 (by decide),
   c5_cache_round_trip_and_expiry.2.2 Nat ⟨[("k", ⟨7, 20⟩)], 10⟩ 30 "k" ⟨7, 20⟩
     (by decide) (by decide) (by decide)⟩

/-! ### C2: the waiter-timeout handler does not remove the waiter -/

/-- C2 (code bug): the queue holds the wrapper closures pushed at line 600;
when waiter `w`'s timeout fires, the handler searches `waitingQueue` for
`resolve` (line 588) — a different function object — finds nothing, and
leaves the queue unchanged, so the wrapper of the already-rejected waiter
stays in the queue.  By contrast, fulfilment by a release (shift) removes
the front entry, and shutdown empties the queue. -/
theorem c2_timeout_does_not_remove_waiter :
    ∀ (ws : List Nat) (w : Nat),
      timeoutSplice (pushWaiter (ws.map FnRef.wrapperFn) w) w
        = pushWaiter (ws.map FnRef.wrapperFn) w ∧
      FnRef.wrapperFn w ∈ timeoutSplice (pushWaiter (ws.map FnRef.wrapperFn) w) w ∧
      (∀ (f : FnRef) (rest : List FnRef), releaseShift (f :: rest) = (some f, rest)) ∧
      shutdownClear (pushWaiter (ws.map FnRef.wrapperFn) w) = [] := by
  intro ws w
  have hmem : FnRef.resolveFn w ∉ pushWaiter (ws.map FnRef.wrapperFn) w := by
    simp [pushWaiter]
  have hidx : (pushWaiter (ws.map FnRef.wrapperFn) w).indexOf (FnRef.resolveFn w)
      = (pushWaiter (ws.map FnRef.wrapperFn) w).length :=
    List.indexOf_eq_length.mpr hmem
  have hsplice : timeoutSplice (pushWaiter (ws.map FnRef.wrapperFn) w) w
      = pushWaiter (ws.map FnRef.wrapperFn) w := by
    simp [timeoutSplice, hidx]
  refine ⟨hsplice, ?_, fun f rest => rfl, rfl⟩
  rw [hsplice]
  simp [pushWaiter]

/-! ### C7: stage failures in waitForPageLoad -/

/-- C7 counterexample: when stage 1 (DOM complete) fails, the run stops at
stage 1 — stage 2 is never entered, refuting "the machine then advances to
the next stage regardless" — though nothing propagates to the caller. -/
theorem c7_counterexample :
    waitForPageLoad (fun i => i == 1) = ([1], false) ∧
    1 ∈ (waitForPageLoad (fun i => i == 1)).1 ∧
    2 ∉ (waitForPageLoad (fun i => i == 1)).1 := by
  decide

/-- C7 amended: no stage failure ever propagates out of `waitForPageLoad`
(the outer catch swallows everything), and as long as stages 1 and 2
succeed, every stage up to 10 is entered no matter which of stages 3-10
fail; but a failure of stage 1 or 2 reaches the outer catch and skips the
remaining stages. -/
theorem c7_failures_swallowed_stages_3_to_10_advance :
    (∀ fails : Nat → Bool, (waitForPageLoad fails).2 = false) ∧
    (∀ fails : Nat → Bool, fails 1 = false → fails 2 = false →
      (waitForPageLoad fails).1 = pageLoadStages) := by
  constructor
  · intro fails
    suffices h : ∀ l : List Nat, (runStagesFrom fails l).2 = false by
      exact h pageLoadStages
    intro l
    induction l with
    | nil => rfl
    | cons i rest ih =>
      by_cases h : (fails i && !stageInternallyCaught i) = true
      · simp [runStagesFrom, h]
      · simp only [runStagesFrom, Bool.not_eq_true] at h ⊢
        simp [h, ih]
  · intro fails h1 h2
    simp [waitForPageLoad, pageLoadStages, runStagesFrom, stageInternallyCaught, h1, h2]

/-- Witness for C7 amended: with stages 1-2 succeeding and stages 3-10 all
failing, nothing propagates and all ten stages are entered. -/
theorem c7_failures_swallowed_witness :
    (waitForPageLoad (fun i => decide (3 ≤ i))).2 = false ∧
    (waitForPageLoad (fun i => decide (3 ≤ i))).1 = pageLoadStages :=
  ⟨c7_failures_swallowed_stages_3_to_10_advance.1 _,
   c7_failures_swallowed_stages_3_to_10_advance.2 (fun i => decide (3 ≤ i))
     (by decide) (by decide)⟩

/-! ### C3: RequestQueue invariants -/

/-- The inductive invariant of `RequestQueue` states: the concurrency cap
is respected, the ghost submission history splits into the dispatch
history followed by the pending queue, and task identifiers are fresh. -/
def QInv (s : QueueState) : Prop :=
  s.running ≤ s.maxConcurrent ∧
  s.submitted = s.dispatched ++ s.queue ∧
  s.submitted.Nodup ∧
  ∀ t ∈ s.submitted, t < s.nextTask

lemma processQueue_settled (s : QueueState) : (processQueue s).settled = s.settled := by
  unfold processQueue
  cases s.queue with
  | nil => rfl
  | cons t rest => by_cases h : s.maxConcurrent ≤ s.running <;> simp [h]

lemma qInv_processQueue {s : QueueState} (h : QInv s) : QInv (processQueue s) := by
  obtain ⟨hrun, hsplit, hnd, hfresh⟩ := h
  unfold processQueue
  cases hq : s.queue with
  | nil => exact ⟨hrun, hsplit, hnd, hfresh⟩
  | cons t rest =>
    by_cases hcap : s.maxConcurrent ≤ s.running
    · simp only [if_pos hcap]
      exact ⟨hrun, hsplit, hnd, hfresh⟩
    · simp only [if_neg hcap]
      refine ⟨Nat.succ_le_of_lt (Nat.lt_of_not_le hcap), ?_, hnd, hfresh⟩
      show s.submitted = (s.dispatched ++ [t]) ++ rest
      rw [hsplit, hq, List.append_assoc]
      rfl

lemma qInv_step (e : QEvent) {s : QueueState} (h : QInv s) : QInv (qStep e s) := by
  obtain ⟨hrun, hsplit, hnd, hfresh⟩ := h
  cases e with
  | submit =>
    refine qInv_processQueue ⟨hrun, ?_, ?_, ?_⟩
    · show s.submitted ++ [s.nextTask] = s.dispatched ++ (s.queue ++ [s.nextTask])
      rw [hsplit, List.append_assoc]
    · show (s.submitted ++ [s.nextTask]).Nodup
      simp only [List.nodup_append, List.nodup_cons]
      refine ⟨hnd, by simp, ?_⟩
      intro t ht htmem
      simp only [List.mem_singleton] at htmem
      subst htmem
      exact absurd (hfresh _ ht) (lt_irrefl _)
    · intro t ht
      show t < s.nextTask + 1
      simp only [List.mem_append, List.mem_singleton] at ht
      rcases ht with ht | ht
      · exact Nat.lt_succ_of_lt (hfresh t ht)
      · omega
  | complete t ok =>
    exact qInv_processQueue ⟨Nat.le_trans (Nat.sub_le _ _) hrun, hsplit, hnd, hfresh⟩

lemma qInv_foldl (evs : List QEvent) :
    ∀ (s : QueueState), QInv s → QInv (evs.foldl (fun s e => qStep e s) s) := by
  induction evs with
  | nil => exact fun _ hs => hs
  | cons e rest ih => exact fun s hs => ih _ (qInv_step e hs)

lemma qInv_run (maxC : Nat) (evs : List QEvent) : QInv (qRun maxC evs) := by
  refine qInv_foldl evs _ ⟨Nat.zero_le _, rfl, List.nodup_nil, ?_⟩
  intro t ht
  simp [initQueue] at ht

/-- C3: for every submission/settlement pattern, the running count never
exceeds `maxConcurrent` at any point between suspension points; tasks are
dispatched in strict submission order (the dispatch history is a prefix of
the submission history, with the pending queue as the remainder); no task
is dispatched twice; and a settling task (successful or failed) touches
only its own `resolve`/`reject` record. -/
theorem c3_request_queue_invariants :
    ∀ (maxC : Nat) (evs : List QEvent),
      (qRun maxC evs).running ≤ (qRun maxC evs).maxConcurrent ∧
      (qRun maxC evs).submitted
        = (qRun maxC evs).dispatched ++ (qRun maxC evs).queue ∧
      (qRun maxC evs).dispatched.Nodup ∧
      ∀ (t : Nat) (ok : Bool),
        (qStep (QEvent.complete t ok) (qRun maxC evs)).settled
          = (qRun maxC evs).settled ++ [(t, ok)] := by
  intro maxC evs
  obtain ⟨hrun, hsplit, hnd, _⟩ := qInv_run maxC evs
  refine ⟨hrun, hsplit, ?_, ?_⟩
  · rw [hsplit] at hnd
    exact hnd.of_append_left
  · intro t ok
    simp [qStep, taskSettled, processQueue_settled]

/-! ### C6: creation retries and backoff -/

lemma createBrowser_none_iff (o : Nat → Bool) :
    (createBrowser o).1 = none ↔
      o 0 = false ∧ o 1 = false ∧ o 2 = false ∧ o 3 = false := by
  cases h0 : o 0 <;> cases h1 : o 1 <;> cases h2 : o 2 <;> cases h3 : o 3 <;>
    simp [createBrowser, createBrowserAux, maxCreateRetries, h0, h1, h2, h3]

/-- C6: a failed creation is retried up to 3 more times with backoff
delays 2000, 4000, 8000 ms; the terminal creation error reaches the caller
of acquire only when every launch attempt of every `createBrowser` run has
failed; and two failures followed by a success still let acquire obtain an
instance, with delays 2000 then 4000 observed. -/
theorem c6_creation_retry_policy :
    (∀ o : Nat → Bool, (∀ k, k ≤ 3 → o k = false) →
      createBrowser o = (none, [2000, 4000, 8000])) ∧
    (∀ o : Nat → Bool, o 0 = false → o 1 = false → o 2 = true →
      createBrowser o = (some 2, [2000, 4000])) ∧
    (∀ o : Nat → Nat → Bool, (acquireViaCreate o).1 = none →
      ∀ r k, r ≤ 2 → k ≤ 3 → o r k = false) ∧
    (∀ o : Nat → Nat → Bool, o 0 0 = false → o 0 1 = false → o 0 2 = true →
      acquireViaCreate o = (some 2, [2000, 4000])) := by
  refine ⟨?_, ?_, ?_, ?_⟩
  · intro o hfail
    have h0 := hfail 0 (by omega)
    have h1 := hfail 1 (by omega)
    have h2 := hfail 2 (by omega)
    have h3 := hfail 3 (by omega)
    simp [createBrowser, createBrowserAux, maxCreateRetries, h0, h1, h2, h3,
      createBaseDelay]
  · intro o h0 h1 h2
    simp [createBrowser, createBrowserAux, maxCreateRetries, h0, h1, h2,
      createBaseDelay]
  · intro o hnone r k hr hk
    have step : ∀ (r' fuel : Nat), (acquireCreateAux o r' (fuel + 1)).1 = none →
        (createBrowser (o r')).1 = none ∧ (acquireCreateAux o (r' + 1) fuel).1 = none := by
      intro r' fuel h
      rcases hce : createBrowser (o r') with ⟨res, ds⟩
      cases res with
      | some j => simp [acquireCreateAux, hce] at h
      | none =>
        refine ⟨by simp [hce], ?_⟩
        rcases hnext : acquireCreateAux o (r' + 1) fuel with ⟨res', ds'⟩
        cases res' with
        | some j => simp [acquireCreateAux, hce, hnext] at h
        | none => rfl
    have hA : (acquireCreateAux o 0 2).1 = none := hnone
    obtain ⟨hc0, hB⟩ := step 0 1 hA
    obtain ⟨hc1, hC⟩ := step 1 0 hB
    have hc2 : (createBrowser (o 2)).1 = none := hC
    rw [createBrowser_none_iff] at hc0 hc1 hc2
    interval_cases r <;> interval_cases k <;> tauto
  · intro o h0 h1 h2
    have hcb : createBrowser (o 0) = (some 2, [2000, 4000]) := by
      simp [createBrowser, createBrowserAux, maxCreateRetries, h0, h1, h2,
        createBaseDelay]
    simp [acquireViaCreate, acquireCreateAux, acquireMaxRetries, hcb]

/-- Witness for C6: with the all-fail oracle `createBrowser` returns the
terminal error after backoffs 2000, 4000, 8000; with two failures then a
success the acquire creation path succeeds after backoffs 2000, 4000; and
the surfaced-error direction instantiated at the all-fail oracle. -/
theorem c6_creation_retry_policy_witness :
    createBrowser (fun _ => false) = (none, [2000, 4000, 8000]) ∧
    createBrowser (fun k => k == 2) = (some 2, [2000, 4000]) ∧
    (fun (_ _ : Nat) => false) 1 2 = false ∧
    acquireViaCreate (fun _ k => k == 2) = (some 2, [2000, 4000]) :=
  ⟨c6_creation_retry_policy.1 (fun _ => false) (fun _ _ => rfl),
   c6_creation_retry_policy.2.1 (fun k => k == 2) rfl rfl rfl,
   c6_creation_retry_policy.2.2.1 (fun _ _ => false) (by decide) 1 2
     (by omega) (by omega),
   c6_creation_retry_policy.2.2.2 (fun _ k => k == 2) rfl rfl rfl⟩

/-! ### C8: termination of the readiness-detector loops -/

lemma scrollCond_zero_viewport : scrollCond ⟨1, 0, 0⟩ = true := by
  simp only [scrollCond, decide_eq_true_eq]
  norm_num

lemma scrollStepFn_zero_viewport : scrollStepFn ⟨1, 0, 0⟩ = ⟨1, 0, 0⟩ := by
  simp only [scrollStepFn, ScrollState.mk.injEq]
  norm_num

lemma scrollLoop_zero_viewport_stuck :
    ∀ n : Nat, scrollLoop n ⟨1, 0, 0⟩ = none := by
  intro n
  induction n with
  | zero => simp [scrollLoop, scrollCond_zero_viewport]
  | succ n ih =>
    rw [scrollLoop, scrollCond_zero_viewport]
    simp only [if_true, scrollStepFn_zero_viewport, ih, Option.map_none']

/-- C8 counterexample: for a page reporting `scrollHeight = 1` and
`viewportHeight = 0`, the loop guard holds, the scroll step leaves the
state unchanged (`scrollStep = viewportHeight * 0.8 = 0`), and the loop
has not exited after 50 iterations (indeed, by the first two conjuncts,
it never exits) — the in-page lazy-load scrolling loop runs forever, so
the detector does not terminate for every page state. -/
theorem c8_counterexample :
    scrollCond ⟨1, 0, 0⟩ = true ∧
    scrollStepFn ⟨1, 0, 0⟩ = ⟨1, 0, 0⟩ ∧
    scrollLoop 50 ⟨1, 0, 0⟩ = none :=
  ⟨scrollCond_zero_viewport, scrollStepFn_zero_viewport,
   scrollLoop_zero_viewport_stuck 50⟩

lemma stabilityAux_le (content : Nat → Nat) :
    ∀ (fuel idx stableCount : Nat) (prev : Option Nat),
      stabilityAux content idx prev stableCount fuel ≤ fuel := by
  intro fuel
  induction fuel with
  | zero => intro idx stableCount prev; rfl
  | succ n ih =>
    intro idx stableCount prev
    unfold stabilityAux
    by_cases h : prev = some (content idx) ∧ 0 < content idx
    · by_cases h3 : 3 ≤ stableCount + 1
      · simp only [if_pos h, if_pos h3]
        omega
      · simp only [if_pos h, if_neg h3]
        have := ih (idx + 1) (stableCount + 1) (some (content idx))
        omega
    · simp only [if_neg h]
      have := ih (idx + 1) 0 (some (content idx))
      omega

lemma scrollLoop_of_bound :
    ∀ (n : Nat) (s : ScrollState),
      s.scrollHeight - s.viewportHeight
          ≤ s.currentPosition + n * (4 / 5 * s.viewportHeight) →
      ∃ r, scrollLoop n s = some r := by
  intro n
  induction n with
  | zero =>
    intro s h
    have hc : scrollCond s = false := by
      simp only [scrollCond, decide_eq_false_iff_not, not_lt]
      simpa using h
    exact ⟨0, by simp [scrollLoop, hc]⟩
  | succ n ih =>
    intro s h
    by_cases hc : scrollCond s = true
    · have hcast : ((n + 1 : Nat) : ℚ) * (4 / 5 * s.viewportHeight)
          = (n : ℚ) * (4 / 5 * s.viewportHeight) + 4 / 5 * s.viewportHeight := by
        push_cast
        ring
      have hb : (scrollStepFn s).scrollHeight - (scrollStepFn s).viewportHeight
          ≤ (scrollStepFn s).currentPosition
            + n * (4 / 5 * (scrollStepFn s).viewportHeight) := by
        simp only [scrollStepFn]
        rw [hcast] at h
        linarith
      obtain ⟨r, hr⟩ := ih (scrollStepFn s) hb
      exact ⟨r + 1, by simp [scrollLoop, hc, hr]⟩
    · have hc' : scrollCond s = false := by
        cases h' : scrollCond s
        · rfl
        · exact absurd h' hc
      exact ⟨0, by simp [scrollLoop, hc']⟩

/-- C8 amended: the content-stability stage takes at most its 8-sample
budget for every sample sequence, and the lazy-load scrolling loop exits
after finitely many steps for every page state with a positive viewport
height (with a zero viewport height and `scrollHeight > viewportHeight`
it never exits, per the counterexample). -/
theorem c8_bounded_loops :
    (∀ content : Nat → Nat, stabilityChecks content ≤ 8) ∧
    (∀ s : ScrollState, 0 < s.viewportHeight → ∃ n r, scrollLoop n s = some r) := by
  constructor
  · intro content
    exact stabilityAux_le content 8 0 0 none
  · intro s hv
    have hd : 0 < 4 / 5 * s.viewportHeight := by positivity
    obtain ⟨n, hn⟩ := exists_nat_gt
      ((s.scrollHeight - s.viewportHeight - s.currentPosition) / (4 / 5 * s.viewportHeight))
    have hb : s.scrollHeight - s.viewportHeight
        ≤ s.currentPosition + n * (4 / 5 * s.viewportHeight) := by
      rw [div_lt_iff₀ hd] at hn
      linarith
    obtain ⟨r, hr⟩ := scrollLoop_of_bound n s hb
    exact ⟨n, r, hr⟩

/-- Witness for C8 amended: a concrete sample sequence stays within the
8-sample budget, and a concrete page state with positive viewport height
(scrollHeight 2, viewportHeight 1) exits the scrolling loop. -/
theorem c8_bounded_loops_witness :
    stabilityChecks (fun _ => 5) ≤ 8 ∧
    ∃ n r, scrollLoop n ⟨2, 1, 0⟩ = some r :=
  ⟨c8_bounded_loops.1 (fun _ => 5),
   c8_bounded_loops.2 ⟨2, 1, 0⟩ (by norm_num)⟩

/-! ### C9: shutdown is permanent -/

lemma releaseBrowser_flag (healthy : Nat → Bool) (s : PoolState) (b : Nat) :
    (releaseBrowser healthy s b).1.isShuttingDown = s.isShuttingDown := by
  unfold releaseBrowser removeBrowser
  by_cases h1 : s.isShuttingDown = true <;> by_cases h2 : healthy b = true <;>
    cases hq : s.waitingQueue <;> simp [h1, h2, hq]

lemma releaseStep_flag (healthy : Nat → Bool) (s : PoolState) (b : Nat) :
    (releaseStep healthy s b).isShuttingDown = s.isShuttingDown := by
  unfold releaseStep
  rcases hr : releaseBrowser healthy s b with ⟨s', act⟩
  have hflag : s'.isShuttingDown = s.isShuttingDown := by
    have := releaseBrowser_flag healthy s b
    rwa [hr] at this
  cases act <;> simpa using hflag

/-- C9: once the shutting-down flag is set (by `shutdown`, also when the
idle-reaper timer of `scheduleCleanup` fires), no `BrowserPool` operation
— acquire, release, removeBrowser, shutdown, or even a renewed
`initialize` — ever resets it, and every subsequent acquire rejects
immediately with the shutting-down error, leaving the state untouched. -/
theorem c9_shutdown_is_permanent :
    ∀ (healthy createOk : Nat → Bool) (op : PoolOp) (s : PoolState),
      s.isShuttingDown = true →
      (applyPoolOp healthy createOk op s).isShuttingDown = true ∧
      acquireBrowserSeq healthy s = (s, AcqOutcome.errorShuttingDown) := by
  intro healthy createOk op s hsd
  have hacq : acquireBrowserSeq healthy s = (s, AcqOutcome.errorShuttingDown) := by
    unfold acquireBrowserSeq
    rw [if_pos hsd]
  refine ⟨?_, hacq⟩
  cases op with
  | acquire =>
    show (acquireBrowserSeq healthy s).1.isShuttingDown = true
    rw [hacq]
    exact hsd
  | release i =>
    show (releaseBrowserSeq healthy i s).isShuttingDown = true
    unfold releaseBrowserSeq
    by_cases h : s.inUse.length = 0
    · rw [if_pos h]; exact hsd
    · rw [if_neg h, releaseStep_flag]; exact hsd
  | removeB b => exact hsd
  | shutdown => rfl
  | fill => exact hsd

/-- Witness for C9: a concretely shut-down pool of capacity 1 keeps its
flag under an acquire, and the acquire itself rejects. -/
theorem c9_shutdown_is_permanent_witness :
    (applyPoolOp (fun _ => true) (fun _ => true) PoolOp.acquire
        (shutdownPool (initPool 1 (fun _ => true)))).isShuttingDown = true ∧
    acquireBrowserSeq (fun _ => true) (shutdownPool (initPool 1 (fun _ => true)))
      = (shutdownPool (initPool 1 (fun _ => true)), AcqOutcome.errorShuttingDown) :=
  c9_shutdown_is_permanent (fun _ => true) (fun _ => true) PoolOp.acquire
    (shutdownPool (initPool 1 (fun _ => true))) rfl

/-! ### C4: release routing and the health check -/

/-- C4: for a release on a pool that is not shutting down — a healthy
entry with a pending waiter is handed to the oldest waiter and never
pushed onto the available stack; a healthy entry with no waiter is pushed
onto the available stack; an unhealthy entry is removed and discarded;
and an entry is handed to a waiter only when it passed the health check,
and only to the oldest waiter. -/
theorem c4_release_routing :
    ∀ (healthy : Nat → Bool) (s : PoolState) (b : Nat),
      s.isShuttingDown = false →
      (∀ w rest, healthy b = true → s.waitingQueue = w :: rest →
        releaseBrowser healthy s b
          = ({ s with waitingQueue := rest }, ReleaseAction.handedToWaiter w)) ∧
      (healthy b = true → s.waitingQueue = [] →
        releaseBrowser healthy s b
          = ({ s with available := b :: s.available }, ReleaseAction.pushedToAvailable)) ∧
      (healthy b = false →
        releaseBrowser healthy s b
          = (removeBrowser s b, ReleaseAction.removedUnhealthy)) ∧
      (∀ w, (releaseBrowser healthy s b).2 = ReleaseAction.handedToWaiter w →
        healthy b = true ∧ s.waitingQueue.head? = some w) := by
  intro healthy s b hsd
  refine ⟨?_, ?_, ?_, ?_⟩
  · intro w rest hh hq
    simp [releaseBrowser, hsd, hh, hq]
  · intro hh hq
    simp [releaseBrowser, hsd, hh, hq]
  · intro hh
    simp [releaseBrowser, hsd, hh]
  · intro w hact
    by_cases hh : healthy b = true
    · cases hq : s.waitingQueue with
      | nil =>
        rw [releaseBrowser] at hact
        simp [hsd, hh, hq] at hact
      | cons w' rest =>
        rw [releaseBrowser] at hact
        simp only [hsd, hh, hq, Bool.false_eq_true, if_false, if_true] at hact
        cases hact
        exact ⟨hh, rfl⟩
    · have hh' : healthy b = false := by
        revert hh; cases healthy b <;> simp
      rw [releaseBrowser] at hact
      simp [hsd, hh'] at hact

/-- Witness for C4: on a concrete pool with one waiter (id 7), releasing
the healthy in-use browser 3 hands it to waiter 7 and leaves the available
stack empty. -/
theorem c4_release_routing_witness :
    releaseBrowser (fun _ => true) ⟨2, [3], [], [3], [7], 4, 8, 0, false⟩ 3
      = (⟨2, [3], [], [3], [], 4, 8, 0, false⟩, ReleaseAction.handedToWaiter 7) :=
  (c4_release_routing (fun _ => true) ⟨2, [3], [], [3], [7], 4, 8, 0, false⟩ 3 rfl).1
    7 [] rfl rfl

/-! ### C1: pool accounting -/

/-- The inductive invariant of the sequential pool: the instance set is a
permutation of the available stack followed by the checked-out instances,
instances are distinct, the set is within capacity, and identifiers are
fresh. -/
def PoolInv (psize : Nat) (s : PoolState) : Prop :=
  s.poolSize = psize ∧
  s.browsers.Perm (s.available ++ s.inUse) ∧
  s.browsers.Nodup ∧
  s.browsers.length ≤ psize ∧
  ∀ b ∈ s.browsers, b < s.nextId

lemma acquireLoop_spec (healthy : Nat → Bool) :
    ∀ (avail brs extra avail' brs' : List Nat) (got : Option Nat),
      brs.Perm (avail ++ extra) → brs.Nodup →
      acquireLoop healthy avail brs = (avail', brs', got) →
      brs'.Nodup ∧ brs'.length ≤ brs.length ∧ (∀ x ∈ brs', x ∈ brs) ∧
      (∀ b, got = some b → brs'.Perm (avail' ++ (extra ++ [b]))) ∧
      (got = none → avail' = [] ∧ brs'.Perm extra) := by
  intro avail
  induction avail with
  | nil =>
    intro brs extra avail' brs' got hperm hnd heq
    simp only [acquireLoop, Prod.mk.injEq] at heq
    obtain ⟨h1, h2, h3⟩ := heq
    subst h1; subst h2; subst h3
    refine ⟨hnd, le_refl _, fun x hx => hx, ?_, ?_⟩
    · intro b hb
      exact absurd hb (by simp)
    · intro _
      exact ⟨rfl, by simpa using hperm⟩
  | cons b rest ih =>
    intro brs extra avail' brs' got hperm hnd heq
    have hperm' : brs.Perm (b :: (rest ++ extra)) := hperm
    have hndae : (b :: (rest ++ extra)).Nodup := hperm'.nodup hnd
    rw [List.nodup_cons] at hndae
    obtain ⟨hbnot, hndre⟩ := hndae
    by_cases hb : healthy b = true
    · rw [acquireLoop, if_pos hb, Prod.mk.injEq, Prod.mk.injEq] at heq
      obtain ⟨h1, h2, h3⟩ := heq
      subst h1; subst h2; subst h3
      refine ⟨hnd, le_refl _, fun x hx => hx, ?_, ?_⟩
      · intro b' hb'
        obtain rfl : b = b' := by injection hb'
        have h1 : brs.Perm ((rest ++ extra) ++ [b]) :=
          hperm'.trans (List.perm_append_singleton _ _).symm
        rwa [List.append_assoc] at h1
      · intro hcontr
        exact absurd hcontr (by simp)
    · rw [acquireLoop, if_neg hb] at heq
      have hbrest : b ∉ rest := fun hc => hbnot (List.mem_append_left _ hc)
      have herase : rest.erase b = rest := List.erase_of_not_mem hbrest
      rw [herase] at heq
      have hpermE : (brs.erase b).Perm (rest ++ extra) := by
        have h1 := hperm'.erase b
        rwa [List.erase_cons_head] at h1
      have hndE : (brs.erase b).Nodup := (List.erase_sublist b brs).nodup hnd
      obtain ⟨i1, i2, i3, i4, i5⟩ := ih (brs.erase b) extra avail' brs' got hpermE hndE heq
      refine ⟨i1, ?_, ?_, i4, i5⟩
      · exact i2.trans (List.erase_sublist b brs).length_le
      · intro x hx
        exact List.mem_of_mem_erase (i3 x hx)

lemma poolInv_acquire (healthy : Nat → Bool) {psize : Nat} {s : PoolState}
    (h : PoolInv psize s) : PoolInv psize (acquireBrowserSeq healthy s).1 := by
  obtain ⟨hps, hperm, hnd, hlen, hfresh⟩ := h
  unfold acquireBrowserSeq
  by_cases hsd : s.isShuttingDown = true
  · rw [if_pos hsd]
    exact ⟨hps, hperm, hnd, hlen, hfresh⟩
  · rw [if_neg hsd]
    rcases hloop : acquireLoop healthy s.available s.browsers with ⟨avail', brs', got⟩
    obtain ⟨snd, slen, smem, hsome, hnone⟩ :=
      acquireLoop_spec healthy s.available s.browsers s.inUse avail' brs' got
        hperm hnd hloop
    cases got with
    | some b =>
      dsimp only
      refine ⟨hps, ?_, snd, le_trans slen hlen, ?_⟩
      · exact hsome b rfl
      · intro x hx
        exact hfresh x (smem x hx)
    | none =>
      obtain ⟨havail, hpermN⟩ := hnone rfl
      subst havail
      dsimp only
      by_cases hcap : brs'.length < s.poolSize
      · rw [if_pos hcap]
        refine ⟨hps, ?_, ?_, ?_, ?_⟩
        · show (brs' ++ [s.nextId]).Perm ([] ++ (s.inUse ++ [s.nextId]))
          simpa using hpermN.append_right [s.nextId]
        · rw [List.nodup_append]
          refine ⟨snd, by simp, ?_⟩
          intro x hx hx'
          simp only [List.mem_singleton] at hx'
          subst hx'
          exact absurd (hfresh _ (smem _ hx)) (lt_irrefl _)
        · show (brs' ++ [s.nextId]).length ≤ psize
          rw [hps] at hcap
          simp only [List.length_append, List.length_singleton]
          omega
        · intro x hx
          show x < s.nextId + 1
          rcases List.mem_append.mp hx with hx | hx
          · exact Nat.lt_succ_of_lt (hfresh x (smem x hx))
          · simp only [List.mem_singleton] at hx
            omega
      · rw [if_neg hcap]
        refine ⟨hps, by simpa using hpermN, snd, le_trans slen hlen, ?_⟩
        intro x hx
        exact hfresh x (smem x hx)

lemma poolInv_release (healthy : Nat → Bool) (i : Nat) {psize : Nat}
    {s : PoolState} (h : PoolInv psize s) :
    PoolInv psize (releaseBrowserSeq healthy i s) := by
  obtain ⟨hps, hperm, hnd, hlen, hfresh⟩ := h
  unfold releaseBrowserSeq
  by_cases hlen0 : s.inUse.length = 0
  · rw [if_pos hlen0]
    exact ⟨hps, hperm, hnd, hlen, hfresh⟩
  · rw [if_neg hlen0]
    set b := s.inUse.getD (i % s.inUse.length) 0 with hbdef
    have hmod : i % s.inUse.length < s.inUse.length :=
      Nat.mod_lt i (Nat.pos_of_ne_zero hlen0)
    have hbmem : b ∈ s.inUse := by
      rw [hbdef, List.getD_eq_getElem _ _ hmod]
      exact List.getElem_mem hmod
    have hndae : (s.available ++ s.inUse).Nodup := hperm.nodup hnd
    have hbnotav : b ∉ s.available := by
      rw [List.nodup_append] at hndae
      exact fun hc => hndae.2.2 hc hbmem
    have hremInv : PoolInv psize
        { s with browsers := s.browsers.erase b,
                 available := s.available.erase b,
                 inUse := s.inUse.erase b } := by
      refine ⟨hps, ?_, (List.erase_sublist b s.browsers).nodup hnd,
        le_trans (List.erase_sublist b s.browsers).length_le hlen, ?_⟩
      · show (s.browsers.erase b).Perm (s.available.erase b ++ s.inUse.erase b)
        rw [List.erase_of_not_mem hbnotav]
        have h1 := hperm.erase b
        rwa [List.erase_append_right _ hbnotav] at h1
      · intro x hx
        exact hfresh x (List.mem_of_mem_erase hx)
    by_cases hsd : s.isShuttingDown = true
    · have hr : releaseBrowser healthy s b
          = (removeBrowser s b, ReleaseAction.removedShuttingDown) := by
        simp [releaseBrowser, hsd]
      simp only [releaseStep, hr, removeBrowser]
      exact hremInv
    · by_cases hh : healthy b = true
      · cases hq : s.waitingQueue with
        | cons w rest =>
          have hr : releaseBrowser healthy s b
              = ({ s with waitingQueue := rest }, ReleaseAction.handedToWaiter w) := by
            simp [releaseBrowser, hsd, hh, hq]
          simp only [releaseStep, hr]
          exact ⟨hps, hperm, hnd, hlen, hfresh⟩
        | nil =>
          have hr : releaseBrowser healthy s b
              = ({ s with available := b :: s.available },
                 ReleaseAction.pushedToAvailable) := by
            simp [releaseBrowser, hsd, hh, hq]
          simp only [releaseStep, hr]
          refine ⟨hps, ?_, hnd, hlen, hfresh⟩
          show s.browsers.Perm ((b :: s.available) ++ s.inUse.erase b)
          have h1 : s.inUse.Perm (b :: s.inUse.erase b) :=
            List.perm_cons_erase hbmem
          have h2 : (s.available ++ s.inUse).Perm
              (s.available ++ (b :: s.inUse.erase b)) :=
            List.Perm.append_left _ h1
          exact (hperm.trans h2).trans List.perm_middle
      · have hh' : healthy b = false := by
          revert hh; cases healthy b <;> simp
        have hr : releaseBrowser healthy s b
            = (removeBrowser s b, ReleaseAction.removedUnhealthy) := by
          simp [releaseBrowser, hsd, hh']
        simp only [releaseStep, hr, removeBrowser]
        exact hremInv

lemma poolInv_initPool (psize : Nat) (createOk : Nat → Bool) :
    PoolInv psize (initPool psize createOk) := by
  refine ⟨rfl, ?_, ?_, ?_, ?_⟩
  · show ((List.range psize).filter createOk).Perm
      (((List.range psize).filter createOk).reverse ++ [])
    rw [List.append_nil]
    exact (List.reverse_perm _).symm
  · exact (List.nodup_range psize).filter createOk
  · exact le_trans (List.length_filter_le _ _) (by rw [List.length_range])
  · intro x hx
    show x < psize
    exact List.mem_range.mp (List.mem_of_mem_filter hx)

lemma poolInv_runSeq (healthy : Nat → Bool) (ops : List SeqOp) :
    ∀ {psize : Nat} (s : PoolState), PoolInv psize s →
      PoolInv psize (runSeq healthy ops s) := by
  induction ops with
  | nil => exact fun s hs => hs
  | cons op rest ih =>
    intro psize s hs
    refine ih _ ?_
    cases op with
    | acquire => exact poolInv_acquire healthy hs
    | release i => exact poolInv_release healthy i hs

/-- C1 amended (sequential part): for every sequence of uninterleaved
acquire/release calls from an initialized pool, the available stack plus
the checked-out instances exactly account for the instance set, and
`|available| ≤ |total| ≤ poolCapacity` after each operation. -/
theorem c1_sequential_accounting :
    ∀ (psize : Nat) (createOk healthy : Nat → Bool) (ops : List SeqOp),
      (runSeq healthy ops (initPool psize createOk)).available.length +
          (runSeq healthy ops (initPool psize createOk)).inUse.length =
        (runSeq healthy ops (initPool psize createOk)).browsers.length ∧
      (runSeq healthy ops (initPool psize createOk)).available.length ≤
        (runSeq healthy ops (initPool psize createOk)).browsers.length ∧
      (runSeq healthy ops (initPool psize createOk)).browsers.length ≤ psize := by
  intro psize createOk healthy ops
  obtain ⟨-, hperm, -, hlen, -⟩ :=
    poolInv_runSeq healthy ops (initPool psize createOk)
      (poolInv_initPool psize createOk)
  have hcount := hperm.length_eq
  rw [List.length_append] at hcount
  exact ⟨hcount.symm, by omega, hlen⟩

/-- C1 counterexample (concurrent part): with capacity 1 and an empty
pool, two acquires both pass the `browsers.length < poolSize` check of
line 550 before either resumes from `await createBrowser()`; after both
resume and push (line 558), the pool holds 2 instances — the total set
exceeds `poolCapacity`.  Every micro-step in the trace is enabled
(`microRun` returns `some`). -/
theorem c1_counterexample :
    (microRun [MicroOp.beginC, MicroOp.beginC, MicroOp.finishC, MicroOp.finishC]
        (initPool 1 (fun _ => false))).map
      (fun s => (s.browsers.length, s.poolSize)) = some (2, 1) := by
  decide

/-! ### C10: cache-key collisions -/

/-- C10: the cache fingerprint is the hash of the request fields joined by
`"_"`, and the url may itself contain `"_"`; two distinct request tuples
(differing in url and width) have the same pre-hash string, hence the same
cache key under any hash function, so one request can be served the bytes
cached for the other. -/
theorem c10_cache_key_collision :
    cacheKeyPreimage "http://e.com/a_2" "300" "1080" true "png" =
      cacheKeyPreimage "http://e.com/a" "2_300" "1080" true "png" ∧
    ("http://e.com/a_2", "300") ≠ ("http://e.com/a", "2_300") ∧
    ∀ hash : String → String,
      hash (cacheKeyPreimage "http://e.com/a_2" "300" "1080" true "png") =
        hash (cacheKeyPreimage "http://e.com/a" "2_300" "1080" true "png") := by
  refine ⟨by decide, by decide, ?_⟩
  intro hash
  rfl
